import Mathlib

/-!
Verification of the sospy diagnostic scripts: a shallow embedding of the
page_owner analyzer (`page_owner/chk_po.py`), the OOM log parsers
(`oom/chk_oom_summary.py`, `oom/oom_parser.py`) and the meminfo analyzers
(`meminfo/chk_mem.py`, `meminfo/chk_unaccounted_memory.py`), together with
theorems about the properties they are documented to satisfy.

Modelling conventions:
* Python dictionaries (including `defaultdict`) are modelled as association
  lists in insertion order; a `bump` on a missing key appends at the end,
  matching CPython's insertion-ordered dicts.
* Python arbitrary-precision integers are `Nat`/`Int`; Python's true
  division `/` is exact rational division on `ℚ` (float rounding is
  abstracted away).
* Fallible paths (`sys.exit`, uncaught `ValueError`) are `Option`/`Except`.
* The sha256 call-trace key of `chk_po.py` is modelled by the call-trace
  line list itself: identical trace texts give identical keys, and the
  hash is treated as injective on trace texts.
-/

set_option maxRecDepth 4096

/-- Association-list lookup with decidable key equality, modelling
`dict.get` / `key in dict`. -/
def alookup {α β : Type} [DecidableEq α] : List (α × β) → α → Option β
  | [], _ => none
  | (k0, v) :: rest, k => if k = k0 then some v else alookup rest k

/-- Association-list update-or-append, modelling `d[k] = v` on a Python
dict: overwrite in place if the key exists, else append at the end. -/
def aset {α β : Type} [DecidableEq α] : List (α × β) → α → β → List (α × β)
  | [], k, v => [(k, v)]
  | (k0, v0) :: rest, k, v =>
    if k = k0 then (k0, v) :: rest else (k0, v0) :: aset rest k v

/-- Per-bucket aggregate of `chk_po.py`: `{'allocs': .., 'pages': ..}`. -/
structure PoStats where
  allocs : Nat
  pages : Nat
  deriving DecidableEq, Repr

/-- Per-call-trace aggregate of `chk_po.py`: `{'count': .., 'pages': ..}`. -/
structure CtStats where
  count : Nat
  pages : Nat
  deriving DecidableEq, Repr

/-- `defaultdict(lambda: {'allocs': 0, 'pages': 0})` bump: add `da` allocs
and `dp` pages to the bucket of `k`, creating it at the end if absent. -/
def bumpStats {α : Type} [DecidableEq α] :
    List (α × PoStats) → α → Nat → Nat → List (α × PoStats)
  | [], k, da, dp => [(k, ⟨da, dp⟩)]
  | (k0, s) :: rest, k, da, dp =>
    if k = k0 then (k0, ⟨s.allocs + da, s.pages + dp⟩) :: rest
    else (k0, s) :: bumpStats rest k da dp

/-- `defaultdict(lambda: {'count': 0, 'pages': 0})` bump for call traces. -/
def bumpCt {α : Type} [DecidableEq α] :
    List (α × CtStats) → α → Nat → Nat → List (α × CtStats)
  | [], k, dc, dp => [(k, ⟨dc, dp⟩)]
  | (k0, s) :: rest, k, dc, dp =>
    if k = k0 then (k0, ⟨s.count + dc, s.pages + dp⟩) :: rest
    else (k0, s) :: bumpCt rest k dc dp

/-- One allocation header being assembled (`current_allocation` in
`parse_page_owner`). -/
structure PoAlloc where
  order : Nat
  pid : Int
  tgid : Int
  process : String
  ts : Int
  deriving DecidableEq, Repr

/-- The `skipped_allocations` counters of `parse_page_owner`. -/
structure PoSkipped where
  missing_match : Nat
  incomplete_trace : Nat
  invalid_order : Nat
  deriving DecidableEq, Repr

/-- One entry of the `allocations` result list of `parse_page_owner`
(`{"process": .., "trace_key": .., "pages": ..}`); the trace key is the
trace line list itself (see the modelling note on sha256). -/
structure AllocRec where
  process : String
  trace : List String
  pages : Nat
  deriving DecidableEq, Repr

/-- Classification of one stripped input line of a page_owner dump, in the
priority order of the `elif` chain of `parse_page_owner` (chk_po.py
lines 27-114).  The two header regexes are abstracted into constructors:
`pageAllocatedFull` is a header matching
`order (\d+), mask .*?, pid (\d+), tgid (\d+) \((.*?)\), ts (\d+)`,
`pageAllocatedMinimal` a header matching only `order (\d+), mask`, and
`pageAllocatedBad` a line starting with "Page allocated" matching
neither. -/
inductive PoLine where
  | pageAllocatedFull (order pid tgid : Nat) (process : String) (ts : Nat)
  | pageAllocatedMinimal (order : Nat)
  | pageAllocatedBad
  | pfn
  | text (s : String)
  | blank
  deriving DecidableEq, Repr

/-- Full mutable state of the `parse_page_owner` loop. -/
structure PoState where
  process_data : List (String × PoStats)
  module_data : List (String × PoStats)
  slab_data : List (String × PoStats)
  process_module_pages : List ((String × String) × PoStats)
  calltrace_data : List (List String × CtStats)
  calltrace_index : List (List String × List String)
  skipped : PoSkipped
  allocations : List AllocRec
  current_allocation : Option PoAlloc
  current_calltrace : List String
  in_trace : Bool
  total_allocs : Nat
  valid_allocation_detected : Bool
  deriving DecidableEq, Repr

/-- Initial state of `parse_page_owner`. -/
def poInit : PoState :=
  { process_data := [], module_data := [], slab_data := [],
    process_module_pages := [], calltrace_data := [], calltrace_index := [],
    skipped := ⟨0, 0, 0⟩, allocations := [], current_allocation := none,
    current_calltrace := [], in_trace := false, total_allocs := 0,
    valid_allocation_detected := false }

/-- Boolean list-prefix test on characters. -/
def hasPre : List Char → List Char → Bool
  | [], _ => true
  | _ :: _, [] => false
  | a :: p, b :: l => a = b && hasPre p l

/-- Boolean substring test on characters, modelling Python `pat in s`. -/
def hasSub (p : List Char) : List Char → Bool
  | [] => hasPre p []
  | l@(_ :: t) => hasPre p l || hasSub p t

/-- Lower-cased character list of a string, for the `re.IGNORECASE`
matches of `chk_po.py`. -/
def lcChars (s : String) : List Char := s.toList.map Char.toLower

/-- Leftmost match of `re.search(r'\[([^\]]+)\]', line)`: scan for the
first '[' followed by a nonempty run of non-']' characters and then a
']'; return that run. -/
def scanModule : List Char → Option (List Char)
  | [] => none
  | c :: rest =>
    if c = '[' then
      let seg := rest.takeWhile (fun d => d ≠ ']')
      let after := rest.dropWhile (fun d => d ≠ ']')
      if seg ≠ [] && after ≠ [] then some seg else scanModule rest
    else scanModule rest

/-- Module name extracted from one call-trace line (chk_po.py line 81). -/
def extract_module (s : String) : Option String :=
  (scanModule s.toList).map fun l => String.mk l

/-- The slab heuristic `re.search(r'kmalloc|slab|cache|kfree', line,
re.IGNORECASE)` of chk_po.py line 86. -/
def is_slab_line (s : String) : Bool :=
  hasSub (lcChars "kmalloc") (lcChars s) || hasSub (lcChars "slab") (lcChars s)
    || hasSub (lcChars "cache") (lcChars s) || hasSub (lcChars "kfree") (lcChars s)

/-- `trace_line.strip().split('+')[0]` of chk_po.py line 87 (lines are
already stripped when read). -/
def slab_func (s : String) : String := (s.splitOn "+").headD ""

/-- The `unique_modules` set of chk_po.py lines 79-84, as a list
deduplicated in first-occurrence order (Python set iteration order is
abstracted; only membership matters downstream). -/
def uniqueModules (trace : List String) : List String :=
  trace.foldl
    (fun acc line =>
      match extract_module line with
      | some m => if m ∈ acc then acc else acc ++ [m]
      | none => acc)
    []

/-- The slab aggregation loop body of chk_po.py lines 86-89: one bump per
matching trace line. -/
def slabFold (sd : List (String × PoStats)) (trace : List String) (pages : Nat) :
    List (String × PoStats) :=
  trace.foldl
    (fun acc line =>
      if is_slab_line line then bumpStats acc (slab_func line) 1 pages else acc)
    sd

/-- Finalization of an open allocation at a blank line (chk_po.py lines
68-110), including the `'order' not in current_allocation` guard of lines
69-72. -/
def poFinalize (s : PoState) : PoState :=
  match s.current_allocation with
  | none =>
    { s with skipped := { s.skipped with invalid_order := s.skipped.invalid_order + 1 },
             in_trace := false }
  | some a =>
    let pages := 2 ^ a.order
    let mods := uniqueModules s.current_calltrace
    let key := s.current_calltrace
    { s with
      process_data := bumpStats s.process_data a.process 1 pages,
      slab_data := slabFold s.slab_data s.current_calltrace pages,
      module_data := mods.foldl (fun acc m => bumpStats acc m 1 pages) s.module_data,
      process_module_pages :=
        mods.foldl (fun acc m => bumpStats acc (a.process, m) 1 pages)
          s.process_module_pages,
      calltrace_index :=
        if (alookup s.calltrace_index key).isSome then s.calltrace_index
        else s.calltrace_index ++ [(key, key)],
      calltrace_data := bumpCt s.calltrace_data key 1 pages,
      allocations := s.allocations ++ [⟨a.process, key, pages⟩],
      in_trace := false }

/-- One step of the `parse_page_owner` line loop, following the `elif`
chain of chk_po.py lines 27-114 branch by branch.  Note that in the final
`blank` branch (source lines 111-114) the inner `if in_trace:` guard of the
`incomplete_trace` increment is kept verbatim even though that branch is
only reached with `in_trace` false. -/
def poStep (s : PoState) : PoLine → PoState
  | .pageAllocatedFull order pid tgid process ts =>
    { s with valid_allocation_detected := true,
             current_allocation := some ⟨order, (pid : Int), (tgid : Int), process, (ts : Int)⟩,
             in_trace := true, current_calltrace := [],
             total_allocs := s.total_allocs + 1 }
  | .pageAllocatedMinimal order =>
    { s with valid_allocation_detected := true,
             current_allocation := some ⟨order, -1, -1, "Unknown", -1⟩,
             in_trace := true, current_calltrace := [],
             total_allocs := s.total_allocs + 1 }
  | .pageAllocatedBad =>
    { s with valid_allocation_detected := true,
             skipped := { s.skipped with missing_match := s.skipped.missing_match + 1 },
             in_trace := false }
  | .pfn => s
  | .text str =>
    if s.in_trace then { s with current_calltrace := s.current_calltrace ++ [str] }
    else s
  | .blank =>
    if s.in_trace then poFinalize s
    else
      let s1 :=
        if s.in_trace then
          { s with skipped := { s.skipped with incomplete_trace := s.skipped.incomplete_trace + 1 } }
        else s
      { s1 with in_trace := false }

/-- `parse_page_owner` as a fold of `poStep` over the classified lines of
the input file. -/
def parse_page_owner (lines : List PoLine) : PoState :=
  lines.foldl poStep poInit

/-- Sum of the `pages` field over every bucket of an aggregate map. -/
def pagesSum {α : Type} (m : List (α × PoStats)) : Nat :=
  (m.map fun p => p.2.pages).sum

/-- Sum of the `allocs` field over every bucket of an aggregate map. -/
def allocsSum {α : Type} (m : List (α × PoStats)) : Nat :=
  (m.map fun p => p.2.allocs).sum

/-- Sum of `pages` over the finalized allocation records. -/
def allocPagesSum (l : List AllocRec) : Nat :=
  (l.map fun r => r.pages).sum

/-- Count stored in the call-trace aggregate for a given trace key
(0 when the bucket does not exist). -/
def ctCount (m : List (List String × CtStats)) (key : List String) : Nat :=
  match alookup m key with
  | none => 0
  | some s => s.count

/-! ## oom_parser.py : parse_oom_log -/

/-- Python `pat in line` substring test on strings. -/
def containsStr (line pat : String) : Bool := hasSub pat.toList line.toList

/-- State of the `parse_oom_log` loop (oom_parser.py lines 16-38):
the accumulating `defaultdict(list)` of events and the current open
event key.  Input lines are modelled post-`strip()`. -/
structure OomState where
  events : List (String × List String)
  current : Option String
  deriving DecidableEq, Repr

/-- `oom_events[current_event].append(line)` on a `defaultdict(list)`. -/
def appendEvent : List (String × List String) → String → String → List (String × List String)
  | [], k, v => [(k, [v])]
  | (k0, vs) :: rest, k, v =>
    if k = k0 then (k0, vs ++ [v]) :: rest else (k0, vs) :: appendEvent rest k v

/-- The `if current_event:` body of `parse_oom_log` (oom_parser.py lines
26-30): append the line to the open event and close it on a kill line. -/
def oomStepCore (events : List (String × List String)) (cur : Option String)
    (line : String) : OomState :=
  match cur with
  | none => { events := events, current := none }
  | some e =>
    if containsStr line "Out of memory: Killed process"
        || containsStr line "Out of memory: Kill process" then
      { events := appendEvent events e line, current := none }
    else
      { events := appendEvent events e line, current := some e }

/-- One line of `parse_oom_log`: detect the anchor (which re-keys
`current_event` to this line), then run the append/close body
(oom_parser.py lines 22-30). -/
def oomStep (s : OomState) (line : String) : OomState :=
  if containsStr line "invoked oom-killer" then
    oomStepCore s.events (some line) line
  else
    oomStepCore s.events s.current line

/-- `parse_oom_log` as a fold over the stripped input lines. -/
def parse_oom_log (lines : List String) : OomState :=
  lines.foldl oomStep ⟨[], none⟩

/-! ## chk_oom_summary.py : extract_memory_info (hugepages) and
calculate_memory_usage -/

/-- The three `re.search` results on one `Node \d+ (.*)` sub-line of a
Mem-Info section (chk_oom_summary.py lines 78-80): `hugepages_total=(\d+)`,
`hugepages_free=(\d+)`, `hugepages_size=(\d+)kB`. -/
structure NodeSection where
  hugepages_total : Option Nat
  hugepages_free : Option Nat
  hugepages_size_kb : Option Nat
  deriving DecidableEq, Repr

/-- Accumulation body of the per-node hugepage loop (chk_oom_summary.py
lines 72-92): a node contributes only when all three fields matched. -/
def hugeStep (acc : Int × Int) (n : NodeSection) : Int × Int :=
  match n.hugepages_total, n.hugepages_free, n.hugepages_size_kb with
  | some t, some f, some sz =>
    (acc.1 + (t : Int) * (sz : Int), acc.2 + ((t : Int) - (f : Int)) * (sz : Int))
  | _, _, _ => acc

/-- The hugepage aggregation of `extract_memory_info`: accumulated
`(total_hugepages_memory_kb, used_hugepages_memory_kb)` over the matched
node lines of one section. -/
def extract_hugepages (nodes : List NodeSection) : Int × Int :=
  nodes.foldl hugeStep (0, 0)

/-- A node's contribution when all three hugepage fields matched. -/
def nodeFields (n : NodeSection) : Option (Nat × Nat × Nat) :=
  match n.hugepages_total, n.hugepages_free, n.hugepages_size_kb with
  | some t, some f, some sz => some (t, f, sz)
  | _, _, _ => none

/-- The `memory_info` mapping of chk_oom_summary.py after
`extract_memory_info`: every configured field of `config.patterns` is
present, defaulting to 0 when the regex did not match (source line 64). -/
structure MemoryInfo where
  active_anon : Nat
  inactive_anon : Nat
  isolated_anon : Nat
  active_file : Nat
  inactive_file : Nat
  isolated_file : Nat
  unevictable : Nat
  dirty : Nat
  writeback : Nat
  slab_reclaimable : Nat
  slab_unreclaimable : Nat
  mapped : Nat
  shmem : Nat
  pagetables : Nat
  bounce : Nat
  free : Nat
  free_pcp : Nat
  free_cma : Nat
  pagecache : Nat
  swapcache : Nat
  reserved : Nat
  total_pages_ram : Nat
  free_swap : Nat
  total_swap : Nat
  deriving DecidableEq, Repr

/-- `calculate_memory_usage` (chk_oom_summary.py lines 99-204): returns
`(memory_summary, total_memory_pages, unaccounted_pages)`.  Python float
division is modelled exactly on `ℚ`. -/
def calculate_memory_usage (mi : MemoryInfo) (hugepages_total_kb hugepages_used_kb : ℚ)
    (show_full : Bool) (pagesize_kb : ℚ) : List (String × ℚ) × ℚ × ℚ :=
  let total_memory_pages : ℚ := mi.total_pages_ram
  let hugepages_total_pages : ℚ := hugepages_total_kb / pagesize_kb
  let hugepages_used_pages : ℚ := hugepages_used_kb / pagesize_kb
  let base : List (String × ℚ) :=
    [("Active Anon", mi.active_anon), ("Inactive Anon", mi.inactive_anon),
     ("Active File", mi.active_file), ("Inactive File", mi.inactive_file),
     ("Slab Reclaimable", mi.slab_reclaimable),
     ("Slab Unreclaimable", mi.slab_unreclaimable),
     ("Shmem", mi.shmem), ("Pagetables", mi.pagetables),
     ("Free", mi.free), ("Free Pcp", mi.free_pcp),
     ("Pagecache", mi.pagecache), ("Reserved", mi.reserved),
     ("Hugepages Total", hugepages_total_pages),
     ("Hugepages Used", hugepages_used_pages)]
  let swap_free_pages : ℚ := (mi.free_swap : ℚ) / pagesize_kb
  let swap_total_pages : ℚ := (mi.total_swap : ℚ) / pagesize_kb
  let swap_used_pages : ℚ := swap_total_pages - swap_free_pages
  let withSwap := base ++
    [("Swap Total", swap_total_pages), ("Swap Free", swap_free_pages),
     ("Swap Used", swap_used_pages)]
  let memory_summary :=
    if show_full then
      withSwap ++
        [("Isolated Anon", (mi.isolated_anon : ℚ)), ("Isolated File", (mi.isolated_file : ℚ)),
         ("Unevictable", (mi.unevictable : ℚ)), ("Dirty", (mi.dirty : ℚ)),
         ("Writeback", (mi.writeback : ℚ)), ("Mapped", (mi.mapped : ℚ)),
         ("Bounce", (mi.bounce : ℚ)), ("Free CMA", (mi.free_cma : ℚ)),
         ("Swap cache", (mi.swapcache : ℚ))]
    else withSwap
  let unaccounted_pages : ℚ :=
    total_memory_pages - mi.active_anon - mi.inactive_anon - mi.isolated_anon
      - mi.pagecache - mi.swapcache - mi.slab_reclaimable - mi.slab_unreclaimable
      - mi.pagetables - mi.free - mi.reserved - mi.unevictable - mi.bounce
      - mi.free_cma - hugepages_total_pages
  (memory_summary, total_memory_pages, unaccounted_pages)

/-- The accounted sum of `calculate_memory_usage`: the fourteen categories
subtracted from `total_pages_ram` in chk_oom_summary.py lines 153-167, as
an explicit list. -/
def oomAccountedSum (mi : MemoryInfo) (hugepages_total_pages : ℚ) : ℚ :=
  ([(mi.active_anon : ℚ), mi.inactive_anon, mi.isolated_anon, mi.pagecache,
    mi.swapcache, mi.slab_reclaimable, mi.slab_unreclaimable, mi.pagetables,
    mi.free, mi.reserved, mi.unevictable, mi.bounce, mi.free_cma]).sum
    + hugepages_total_pages

/-! ## meminfo/chk_mem.py -/

/-- The parsed meminfo mapping: field name to integer kB value, in file
order. -/
def Meminfo : Type := List (String × Nat)

/-- The `FIELDS` list of chk_mem.py lines 10-16. -/
def FIELDS : List String :=
  ["MemTotal", "MemFree", "Buffers", "Cached", "SwapCached",
   "Active(anon)", "Inactive(anon)", "AnonPages",
   "Unevictable", "Slab", "KernelStack",
   "PageTables", "Percpu",
   "HugePages_Total", "Hugepagesize", "Hugetlb"]

/-- `compute_anonpages` (chk_mem.py lines 57-64): returns the
`show_anonpages` flag and the possibly-extended mapping; `none` models the
`sys.exit(1)` when AnonPages is absent and cannot be synthesized. -/
def compute_anonpages (m : Meminfo) : Option (Bool × Meminfo) :=
  if (alookup m "AnonPages").isSome then some (true, m)
  else
    match alookup m "Active(anon)", alookup m "Inactive(anon)" with
    | some a, some i => some (false, aset m "AnonPages" (a + i))
    | _, _ => none

/-- The skip conditions of the accounted-field loop of
`calculate_unaccounted` (chk_mem.py lines 143-151). -/
def chkMemSkip (f : String) (show_anonpages : Bool) : Bool :=
  (f = "MemTotal" || f = "Unevictable" || f = "Hugetlb")
    || (f = "AnonPages" && !show_anonpages)
    || ((f = "Active(anon)" || f = "Inactive(anon)") && show_anonpages)
    || (f = "HugePages_Total" || f = "Hugepagesize")

/-- The `accounted` field list built by `calculate_unaccounted`
(chk_mem.py lines 142-155). -/
def chkMemAccounted (m : Meminfo) (show_anonpages : Bool) : List String :=
  (FIELDS.filter fun f => !chkMemSkip f show_anonpages && (alookup m f).isSome)
    ++ (if (alookup m "HugePages").isSome then ["HugePages"] else [])

/-- `calculate_unaccounted` (chk_mem.py lines 136-158): returns
`(total, accounted_sum, unaccounted, accounted)`, or the printed error
when `MemTotal` is absent (modelling `sys.exit(1)`). -/
def calculate_unaccounted (m : Meminfo) (show_anonpages : Bool) :
    Except String (Nat × Nat × Int × List String) :=
  match alookup m "MemTotal" with
  | none => .error "Error: MemTotal not found."
  | some total =>
    let accounted := chkMemAccounted m show_anonpages
    let accounted_sum := (accounted.map fun f => (alookup m f).getD 0).sum
    .ok (total, accounted_sum, (total : Int) - (accounted_sum : Int), accounted)

/-! ## meminfo/chk_unaccounted_memory.py -/

/-- The `fields` list of chk_unaccounted_memory.py lines 43-45. -/
def cuFields : List String :=
  ["MemTotal", "MemFree", "Buffers", "Cached", "Slab", "KernelStack",
   "PageTables", "Percpu", "AnonPages", "Active(anon)", "Inactive(anon)",
   "HugePages_Total", "Hugepagesize"]

/-- Python `list.remove`: drop the first occurrence, `none` models the
`ValueError` raised when the element is absent. -/
def removeFirst : List String → String → Option (List String)
  | [], _ => none
  | x :: rest, y =>
    if y = x then some rest else (removeFirst rest y).map fun l => x :: l

/-- Guarded remove of chk_unaccounted_memory.py lines 95-98
(`if f in list: list.remove(f)`): total because the membership guard makes
the remove succeed. -/
def removeIfPresent (l : List String) (y : String) : List String :=
  if y ∈ l then (removeFirst l y).getD l else l

/-- The main body of chk_unaccounted_memory.py lines 57-101: HugePages
derivation, AnonPages reconciliation, MemTotal check, accounted-field list
(with the unguarded `list.remove` calls of lines 88-92, whose `ValueError`
is modelled by `none`), accounted sum and unaccounted value.  Returns
`(show_anonpages, total, accounted_memory, unaccounted, accounted_fields)`. -/
def chk_unaccounted_calc (m0 : Meminfo) :
    Option (Bool × Nat × Nat × Int × List String) :=
  match alookup m0 "HugePages_Total", alookup m0 "Hugepagesize" with
  | some hpt, some hps =>
    let m1 := aset m0 "HugePages" (hpt * hps)
    let fields := cuFields ++ ["HugePages"]
    let anon : Option (Bool × Meminfo) :=
      if (alookup m1 "AnonPages").isSome then some (true, m1)
      else
        match alookup m1 "Active(anon)", alookup m1 "Inactive(anon)" with
        | some a, some i => some (false, aset m1 "AnonPages" (a + i))
        | _, _ => none
    match anon with
    | none => none
    | some (show_anonpages, m2) =>
      match alookup m2 "MemTotal" with
      | none => none
      | some total =>
        let acc0 := fields.filter fun f => (alookup m2 f).isSome && f ≠ "MemTotal"
        let acc1 : Option (List String) :=
          if show_anonpages then
            match removeFirst acc0 "Active(anon)" with
            | none => none
            | some l => removeFirst l "Inactive(anon)"
          else removeFirst acc0 "AnonPages"
        match acc1 with
        | none => none
        | some l1 =>
          let l2 := removeIfPresent l1 "HugePages_Total"
          let l3 := removeIfPresent l2 "Hugepagesize"
          let accounted_memory := (l3.map fun f => (alookup m2 f).getD 0).sum
          some (show_anonpages, total, accounted_memory,
                (total : Int) - (accounted_memory : Int), l3)
  | _, _ => none

/-! ## chk_po.py reporting views -/

/-- `convert_pages` (chk_po.py lines 118-127): value and unit label. -/
def convert_pages (pages : Nat) (unit : String) : ℚ × String :=
  let kb : ℚ := (pages : ℚ) * 4
  if unit = "K" then (kb, "kB")
  else if unit = "M" then (kb / 1024, "MB")
  else if unit = "G" then (kb / 1024 / 1024, "GB")
  else (kb, "kB")

/-- Descending-by-key order used by `sorted(data.items(), key=lambda x:
x[1][key], reverse=True)`; Python's sort is stable and `List.insertionSort`
with this relation places earlier elements before later equal ones, which
matches. -/
def poDescOrder {α : Type} (key : PoStats → Nat) (a b : α × PoStats) : Prop :=
  key b.2 ≤ key a.2

instance {α : Type} (key : PoStats → Nat) : DecidableRel (poDescOrder (α := α) key) :=
  fun a b => inferInstanceAs (Decidable (key b.2 ≤ key a.2))

/-- The `sorted_items` slice of `show_top` (chk_po.py line 132). -/
def showTopSlice {α : Type} (data : List (α × PoStats)) (key : PoStats → Nat)
    (top_n : Nat) : List (α × PoStats) :=
  (data.insertionSort (poDescOrder key)).take top_n

/-- The totals row of `show_top` (chk_po.py lines 133-142): the loop
accumulates `total_pages`/`total_allocs` while printing and the row shows
`(total_allocs, convert_pages total_pages unit)`. -/
def show_top_totals {α : Type} (data : List (α × PoStats)) (key : PoStats → Nat)
    (unit : String) (top_n : Nat) : Nat × Nat × ℚ :=
  let totals :=
    (showTopSlice data key top_n).foldl
      (fun acc p => (acc.1 + p.2.allocs, acc.2 + p.2.pages)) (0, 0)
  (totals.1, totals.2, (convert_pages totals.2 unit).1)

/-- The per-process aggregation of `show_processes_for_module`
(chk_po.py lines 174-178). -/
def spfmAggregate (pmp : List ((String × String) × PoStats)) (module_name : String) :
    List (String × PoStats) :=
  pmp.foldl
    (fun acc p =>
      if p.1.2 = module_name then bumpStats acc p.1.1 p.2.allocs p.2.pages
      else acc)
    []

/-- The totals row of `show_processes_for_module` (chk_po.py lines
185-195), computed like `show_top`'s over the truncated slice of the
aggregated map (sorted by pages). -/
def show_processes_for_module_totals (pmp : List ((String × String) × PoStats))
    (module_name : String) (unit : String) (top_n : Nat) : Nat × Nat × ℚ :=
  let aggregated := spfmAggregate pmp module_name
  let totals :=
    (showTopSlice aggregated (fun s => s.pages) top_n).foldl
      (fun acc p => (acc.1 + p.2.allocs, acc.2 + p.2.pages)) (0, 0)
  (totals.1, totals.2, (convert_pages totals.2 unit).1)

/-- Number of finalized allocations whose call trace is exactly `key`. -/
def ctMatches (l : List AllocRec) (key : List String) : Nat :=
  (l.filter fun r => r.trace = key).length

/-- A `memory_info` mapping in which no pattern matched: every field
defaulted to 0 by `extract_memory_info` (chk_oom_summary.py line 64). -/
def miZero : MemoryInfo :=
  { active_anon := 0, inactive_anon := 0, isolated_anon := 0, active_file := 0,
    inactive_file := 0, isolated_file := 0, unevictable := 0, dirty := 0,
    writeback := 0, slab_reclaimable := 0, slab_unreclaimable := 0, mapped := 0,
    shmem := 0, pagetables := 0, bounce := 0, free := 0, free_pcp := 0,
    free_cma := 0, pagecache := 0, swapcache := 0, reserved := 0,
    total_pages_ram := 0, free_swap := 0, total_swap := 0 }

/-- A Mem-Info section with `total_pages_ram` absent (defaulted to 0) but
`free:5` matched. -/
def miNoTotal : MemoryInfo := { miZero with free := 5 }

/-- A meminfo mapping whose MemTotal is present but zero. -/
def mMemTotalZero : Meminfo := [("MemTotal", 0), ("MemFree", 5)]

/-- A page_owner file with one fully-parsed allocation of order 2 whose
call trace names no module: one trace line, then the terminating blank. -/
def poNoModuleFile : List PoLine :=
  [.pageAllocatedFull 2 1 1 "a" 0, .text "some_func+0x10", .blank]

/-- A page_owner file whose final allocation block is truncated: a parsed
header and one trace line, but end-of-file before the blank line. -/
def poTruncatedFile : List PoLine :=
  [.pageAllocatedFull 0 1 1 "a" 1, .text "some_func+0x10"]

/-- A meminfo mapping with AnonPages present but Active(anon) and
Inactive(anon) absent (chk_unaccounted_memory.py input shape). -/
def mAnonOnly : Meminfo :=
  [("MemTotal", 100), ("AnonPages", 10), ("HugePages_Total", 0), ("Hugepagesize", 2048)]

/-- A two-bucket aggregate map used to exercise top-N truncation. -/
def topData : List (String × PoStats) := [("a", ⟨1, 1⟩), ("b", ⟨1, 2⟩)]

/-- A log whose single OOM event never reaches a "Killed process" line. -/
def oomTruncatedFile : List String :=
  ["bash invoked oom-killer: gfp_mask=0x0", "Mem-Info:"]

/-! ## Helper lemmas -/

theorem alookup_aset_self {α β : Type} [DecidableEq α] (m : List (α × β)) (k : α) (v : β) :
    alookup (aset m k v) k = some v := by
  induction m with
  | nil => simp [aset, alookup]
  | cons p rest ih =>
    obtain ⟨k0, v0⟩ := p
    by_cases h : k = k0
    · simp [aset, alookup, h]
    · simp [aset, alookup, h, ih]

theorem alookup_aset_ne {α β : Type} [DecidableEq α] (m : List (α × β)) (k k' : α) (v : β)
    (h : k' ≠ k) : alookup (aset m k v) k' = alookup m k' := by
  induction m with
  | nil => simp [aset, alookup, h]
  | cons p rest ih =>
    obtain ⟨k0, v0⟩ := p
    by_cases hk : k = k0
    · subst hk
      simp [aset, alookup, h]
    · by_cases hk' : k' = k0
      · simp [aset, alookup, hk, hk']
      · simp [aset, alookup, hk, hk', ih]

theorem pagesSum_bumpStats {α : Type} [DecidableEq α] (m : List (α × PoStats)) (k : α)
    (da dp : Nat) : pagesSum (bumpStats m k da dp) = pagesSum m + dp := by
  induction m with
  | nil => simp [bumpStats, pagesSum]
  | cons p rest ih =>
    obtain ⟨k0, s⟩ := p
    by_cases h : k = k0
    · simp [bumpStats, pagesSum, h]
      omega
    · simp [bumpStats, pagesSum, h] at ih ⊢
      omega

theorem allocsSum_bumpStats {α : Type} [DecidableEq α] (m : List (α × PoStats)) (k : α)
    (da dp : Nat) : allocsSum (bumpStats m k da dp) = allocsSum m + da := by
  induction m with
  | nil => simp [bumpStats, allocsSum]
  | cons p rest ih =>
    obtain ⟨k0, s⟩ := p
    by_cases h : k = k0
    · simp [bumpStats, allocsSum, h]
      omega
    · simp [bumpStats, allocsSum, h] at ih ⊢
      omega

theorem allocPagesSum_append (l : List AllocRec) (r : AllocRec) :
    allocPagesSum (l ++ [r]) = allocPagesSum l + r.pages := by
  simp [allocPagesSum]

theorem ctCount_bumpCt (m : List (List String × CtStats)) (k key : List String)
    (dc dp : Nat) :
    ctCount (bumpCt m k dc dp) key = ctCount m key + (if key = k then dc else 0) := by
  induction m with
  | nil =>
    by_cases h : key = k <;> simp [bumpCt, ctCount, alookup, h]
  | cons p rest ih =>
    obtain ⟨k0, s⟩ := p
    by_cases h : k = k0
    · subst h
      by_cases hk : key = k <;> simp [bumpCt, ctCount, alookup, hk]
    · by_cases hk : key = k0
      · subst hk
        simp [bumpCt, ctCount, alookup, h]
        intro he
        exact absurd he.symm h
      · simp [bumpCt, ctCount, alookup, h, hk] at ih ⊢
        exact ih

theorem mem_map_fst_bumpCt (m : List (List String × CtStats)) (k x : List String)
    (dc dp : Nat) :
    x ∈ (bumpCt m k dc dp).map Prod.fst ↔ x ∈ m.map Prod.fst ∨ x = k := by
  induction m with
  | nil =>
    simp only [bumpCt, List.map_cons, List.map_nil, List.mem_cons]
    tauto
  | cons p rest ih =>
    obtain ⟨k0, s⟩ := p
    by_cases h : k = k0
    · subst h
      have hb : bumpCt ((k, s) :: rest) k dc dp
          = (k, ⟨s.count + dc, s.pages + dp⟩) :: rest := by
        simp [bumpCt]
      rw [hb, List.map_cons, List.map_cons]
      simp only [List.mem_cons]
      tauto
    · have hb : bumpCt ((k0, s) :: rest) k dc dp = (k0, s) :: bumpCt rest k dc dp := by
        simp [bumpCt, h]
      rw [hb, List.map_cons, List.map_cons]
      simp only [List.mem_cons, ih]
      tauto

theorem nodup_bumpCt (m : List (List String × CtStats)) (k : List String) (dc dp : Nat)
    (h : (m.map Prod.fst).Nodup) : ((bumpCt m k dc dp).map Prod.fst).Nodup := by
  induction m with
  | nil => exact List.nodup_singleton k
  | cons p rest ih =>
    obtain ⟨k0, s⟩ := p
    rw [List.map_cons, List.nodup_cons] at h
    by_cases hk : k = k0
    · subst hk
      have hb : bumpCt ((k, s) :: rest) k dc dp
          = (k, ⟨s.count + dc, s.pages + dp⟩) :: rest := by
        simp [bumpCt]
      rw [hb, List.map_cons, List.nodup_cons]
      exact ⟨h.1, h.2⟩
    · have hb : bumpCt ((k0, s) :: rest) k dc dp = (k0, s) :: bumpCt rest k dc dp := by
        simp [bumpCt, hk]
      rw [hb, List.map_cons, List.nodup_cons]
      refine ⟨fun hx => ?_, ih h.2⟩
      rw [mem_map_fst_bumpCt] at hx
      rcases hx with hx | hx
      · exact h.1 hx
      · exact hk hx.symm

theorem mem_map_fst_bumpStats {α : Type} [DecidableEq α] (m : List (α × PoStats)) (k x : α)
    (da dp : Nat) :
    x ∈ (bumpStats m k da dp).map Prod.fst ↔ x ∈ m.map Prod.fst ∨ x = k := by
  induction m with
  | nil =>
    simp only [bumpStats, List.map_cons, List.map_nil, List.mem_cons]
    tauto
  | cons p rest ih =>
    obtain ⟨k0, s⟩ := p
    by_cases h : k = k0
    · subst h
      have hb : bumpStats ((k, s) :: rest) k da dp
          = (k, ⟨s.allocs + da, s.pages + dp⟩) :: rest := by
        simp [bumpStats]
      rw [hb, List.map_cons, List.map_cons]
      simp only [List.mem_cons]
      tauto
    · have hb : bumpStats ((k0, s) :: rest) k da dp = (k0, s) :: bumpStats rest k da dp := by
        simp [bumpStats, h]
      rw [hb, List.map_cons, List.map_cons]
      simp only [List.mem_cons, ih]
      tauto

theorem nodup_bumpStats {α : Type} [DecidableEq α] (m : List (α × PoStats)) (k : α)
    (da dp : Nat) (h : (m.map Prod.fst).Nodup) :
    ((bumpStats m k da dp).map Prod.fst).Nodup := by
  induction m with
  | nil => exact List.nodup_singleton k
  | cons p rest ih =>
    obtain ⟨k0, s⟩ := p
    rw [List.map_cons, List.nodup_cons] at h
    by_cases hk : k = k0
    · subst hk
      have hb : bumpStats ((k, s) :: rest) k da dp
          = (k, ⟨s.allocs + da, s.pages + dp⟩) :: rest := by
        simp [bumpStats]
      rw [hb, List.map_cons, List.nodup_cons]
      exact ⟨h.1, h.2⟩
    · have hb : bumpStats ((k0, s) :: rest) k da dp = (k0, s) :: bumpStats rest k da dp := by
        simp [bumpStats, hk]
      rw [hb, List.map_cons, List.nodup_cons]
      refine ⟨fun hx => ?_, ih h.2⟩
      rw [mem_map_fst_bumpStats] at hx
      rcases hx with hx | hx
      · exact h.1 hx
      · exact hk hx.symm

theorem poFinalize_incomplete (s : PoState) :
    (poFinalize s).skipped.incomplete_trace = s.skipped.incomplete_trace := by
  cases h : s.current_allocation <;> simp [poFinalize, h]

theorem poStep_incomplete (s : PoState) (l : PoLine) :
    (poStep s l).skipped.incomplete_trace = s.skipped.incomplete_trace := by
  cases l with
  | pageAllocatedFull o p t pr ts => rfl
  | pageAllocatedMinimal o => rfl
  | pageAllocatedBad => rfl
  | pfn => rfl
  | text str => by_cases h : s.in_trace <;> simp [poStep, h]
  | blank =>
    by_cases h : s.in_trace
    · simp only [poStep, if_pos h]
      exact poFinalize_incomplete s
    · simp [poStep, h]

theorem poStep_pages_inv (s : PoState) (l : PoLine)
    (h1 : pagesSum s.process_data = allocPagesSum s.allocations)
    (h2 : allocsSum s.process_data = s.allocations.length) :
    pagesSum (poStep s l).process_data = allocPagesSum (poStep s l).allocations
      ∧ allocsSum (poStep s l).process_data = (poStep s l).allocations.length := by
  cases l with
  | pageAllocatedFull o p t pr ts => exact ⟨h1, h2⟩
  | pageAllocatedMinimal o => exact ⟨h1, h2⟩
  | pageAllocatedBad => exact ⟨h1, h2⟩
  | pfn => exact ⟨h1, h2⟩
  | text str => by_cases h : s.in_trace <;> simp [poStep, h] <;> exact ⟨h1, h2⟩
  | blank =>
    by_cases h : s.in_trace
    · cases ha : s.current_allocation with
      | none =>
        simp only [poStep, if_pos h, poFinalize, ha]
        exact ⟨h1, h2⟩
      | some a =>
        simp only [poStep, if_pos h, poFinalize, ha]
        constructor
        · rw [pagesSum_bumpStats, allocPagesSum_append, h1]
        · rw [allocsSum_bumpStats, List.length_append, h2]
          rfl
    · simp only [poStep, if_neg h, if_neg h]
      exact ⟨h1, h2⟩

theorem poStep_nodup_process (s : PoState) (l : PoLine)
    (h : (s.process_data.map Prod.fst).Nodup) :
    ((poStep s l).process_data.map Prod.fst).Nodup := by
  cases l with
  | pageAllocatedFull o p t pr ts => exact h
  | pageAllocatedMinimal o => exact h
  | pageAllocatedBad => exact h
  | pfn => exact h
  | text str => by_cases hb : s.in_trace <;> simp [poStep, hb] <;> exact h
  | blank =>
    by_cases hb : s.in_trace
    · cases ha : s.current_allocation with
      | none => simp only [poStep, if_pos hb, poFinalize, ha]; exact h
      | some a =>
        simp only [poStep, if_pos hb, poFinalize, ha]
        exact nodup_bumpStats _ _ _ _ h
    · simp only [poStep, if_neg hb, if_neg hb]
      exact h

theorem ctMatches_append (l : List AllocRec) (r : AllocRec) (key : List String) :
    ctMatches (l ++ [r]) key = ctMatches l key + (if r.trace = key then 1 else 0) := by
  simp only [ctMatches, List.filter_append, List.length_append]
  congr 1
  by_cases h : r.trace = key <;> simp [h]

theorem poStep_ct_inv (s : PoState) (l : PoLine) (key : List String)
    (h : ctCount s.calltrace_data key = ctMatches s.allocations key) :
    ctCount (poStep s l).calltrace_data key = ctMatches (poStep s l).allocations key := by
  cases l with
  | pageAllocatedFull o p t pr ts => exact h
  | pageAllocatedMinimal o => exact h
  | pageAllocatedBad => exact h
  | pfn => exact h
  | text str => by_cases hb : s.in_trace <;> simp [poStep, hb] <;> exact h
  | blank =>
    by_cases hb : s.in_trace
    · cases ha : s.current_allocation with
      | none => simp only [poStep, if_pos hb, poFinalize, ha]; exact h
      | some a =>
        simp only [poStep, if_pos hb, poFinalize, ha]
        rw [ctCount_bumpCt, ctMatches_append, h]
        by_cases hk : key = s.current_calltrace
        · simp [hk]
        · have hk2 : ¬(s.current_calltrace = key) := fun he => hk he.symm
          simp [hk, hk2]
    · simp only [poStep, if_neg hb, if_neg hb]
      exact h

theorem poStep_nodup_ct (s : PoState) (l : PoLine)
    (h : (s.calltrace_data.map Prod.fst).Nodup) :
    ((poStep s l).calltrace_data.map Prod.fst).Nodup := by
  cases l with
  | pageAllocatedFull o p t pr ts => exact h
  | pageAllocatedMinimal o => exact h
  | pageAllocatedBad => exact h
  | pfn => exact h
  | text str => by_cases hb : s.in_trace <;> simp [poStep, hb] <;> exact h
  | blank =>
    by_cases hb : s.in_trace
    · cases ha : s.current_allocation with
      | none => simp only [poStep, if_pos hb, poFinalize, ha]; exact h
      | some a =>
        simp only [poStep, if_pos hb, poFinalize, ha]
        exact nodup_bumpCt _ _ _ _ h
    · simp only [poStep, if_neg hb, if_neg hb]
      exact h

theorem poStep_open_alloc (s : PoState) (l : PoLine)
    (h : s.in_trace = true → s.current_allocation.isSome) :
    (poStep s l).in_trace = true → (poStep s l).current_allocation.isSome := by
  cases l with
  | pageAllocatedFull o p t pr ts => intro _; rfl
  | pageAllocatedMinimal o => intro _; rfl
  | pageAllocatedBad => simp [poStep]
  | pfn => exact h
  | text str =>
    by_cases hb : s.in_trace
    · intro _
      simpa [poStep, hb] using h hb
    · simp [poStep, hb]
  | blank =>
    by_cases hb : s.in_trace
    · cases ha : s.current_allocation with
      | none => simp [poStep, hb, poFinalize, ha]
      | some a => simp [poStep, hb, poFinalize, ha]
    · simp [poStep, hb]

theorem removeFirst_eq (l : List String) (y : String) :
    removeFirst l y = if y ∈ l then some (l.erase y) else none := by
  induction l with
  | nil => simp [removeFirst]
  | cons x rest ih =>
    by_cases h : y = x
    · subst h
      simp [removeFirst, List.erase_cons_head]
    · have hx : (x == y) = false := by
        simp [beq_iff_eq]
        exact fun he => h he.symm
      simp only [removeFirst, if_neg h, ih, List.erase_cons, hx, List.mem_cons]
      by_cases hm : y ∈ rest
      · simp [hm, h]
      · simp [hm, h]

theorem removeIfPresent_eq (l : List String) (y : String) :
    removeIfPresent l y = l.erase y := by
  unfold removeIfPresent
  by_cases h : y ∈ l
  · simp [h, removeFirst_eq]
  · simp [h, List.erase_of_not_mem h]

theorem alookup_appendEvent_self (m : List (String × List String)) (k v : String) :
    (alookup (appendEvent m k v) k).isSome := by
  induction m with
  | nil => simp [appendEvent, alookup]
  | cons p rest ih =>
    obtain ⟨k0, vs⟩ := p
    by_cases h : k = k0
    · subst h
      simp [appendEvent, alookup]
    · simp [appendEvent, alookup, h, ih]

theorem oomStepCore_open (events : List (String × List String)) (cur : Option String)
    (line e : String) (h : (oomStepCore events cur line).current = some e) :
    (alookup (oomStepCore events cur line).events e).isSome := by
  cases cur with
  | none => exact Option.noConfusion h
  | some e0 =>
    unfold oomStepCore at h ⊢
    dsimp only at h ⊢
    by_cases hk : (containsStr line "Out of memory: Killed process"
        || containsStr line "Out of memory: Kill process") = true
    · rw [if_pos hk] at h
      exact Option.noConfusion h
    · rw [if_neg hk] at h ⊢
      have he : e0 = e := Option.some.inj h
      subst he
      exact alookup_appendEvent_self events e0 line

theorem oomStep_open (s : OomState) (line e : String)
    (h : (oomStep s line).current = some e) :
    (alookup (oomStep s line).events e).isSome := by
  unfold oomStep at h ⊢
  by_cases hc : containsStr line "invoked oom-killer" = true
  · rw [if_pos hc] at h ⊢
    exact oomStepCore_open s.events (some line) line e h
  · rw [if_neg hc] at h ⊢
    exact oomStepCore_open s.events s.current line e h

theorem totalsFold (l : List (String × PoStats)) (a b : Nat) :
    l.foldl (fun acc p => (acc.1 + p.2.allocs, acc.2 + p.2.pages)) (a, b)
      = (a + allocsSum l, b + pagesSum l) := by
  induction l generalizing a b with
  | nil => simp [allocsSum, pagesSum]
  | cons p rest ih =>
    simp only [List.foldl_cons, ih, allocsSum, pagesSum, List.map_cons, List.sum_cons]
    rw [Prod.mk.injEq]
    constructor <;> omega

theorem allocsSum_perm {l l' : List (String × PoStats)} (h : l.Perm l') :
    allocsSum l = allocsSum l' := by
  unfold allocsSum
  exact (h.map fun p => p.2.allocs).sum_eq

theorem pagesSum_perm {l l' : List (String × PoStats)} (h : l.Perm l') :
    pagesSum l = pagesSum l' := by
  unfold pagesSum
  exact (h.map fun p => p.2.pages).sum_eq

theorem showTopSlice_of_length_le {α : Type} (data : List (α × PoStats))
    (key : PoStats → Nat) (n : Nat) (h : data.length ≤ n) :
    showTopSlice data key n = data.insertionSort (poDescOrder key) := by
  unfold showTopSlice
  apply List.take_of_length_le
  rw [(List.perm_insertionSort (poDescOrder key) data).length_eq]
  exact h

theorem extract_hugepages_fold (nodes : List NodeSection) (a b : Int) :
    nodes.foldl hugeStep (a, b)
      = (a + ((nodes.filterMap nodeFields).map fun t => (t.1 : Int) * (t.2.2 : Int)).sum,
         b + ((nodes.filterMap nodeFields).map fun t => ((t.1 : Int) - (t.2.1 : Int)) * (t.2.2 : Int)).sum) := by
  induction nodes generalizing a b with
  | nil => simp
  | cons n rest ih =>
    obtain ⟨ht, hf, hs⟩ := n
    cases ht with
    | none => simpa [hugeStep, nodeFields] using ih a b
    | some t =>
      cases hf with
      | none => simpa [hugeStep, nodeFields] using ih a b
      | some f =>
        cases hs with
        | none => simpa [hugeStep, nodeFields] using ih a b
        | some sz =>
          simp only [List.foldl_cons, hugeStep, nodeFields, List.filterMap_cons,
            List.map_cons, List.sum_cons, ih]
          rw [Prod.mk.injEq]
          constructor <;> ring

theorem parse_open_alloc (lines : List PoLine) :
    (parse_page_owner lines).in_trace = true →
      (parse_page_owner lines).current_allocation.isSome := by
  suffices h : ∀ (ls : List PoLine) (s : PoState),
      (s.in_trace = true → s.current_allocation.isSome) →
      ((ls.foldl poStep s).in_trace = true → (ls.foldl poStep s).current_allocation.isSome) by
    exact h lines poInit (fun hc => absurd hc (by decide))
  intro ls
  induction ls with
  | nil => intro s h; exact h
  | cons l t ih => intro s h; exact ih (poStep s l) (poStep_open_alloc s l h)

/-! ## Claim theorems -/

/-- C3 (counterexample): a file with one successfully parsed "Page
allocated" block of order 2 (so the claimed right-hand side, the sum of
`2^order` over successfully parsed blocks, is 4) whose call trace names no
module.  The per-process pages sum is 4 but the per-module pages sum is 0,
no skip counter is incremented, so the claimed per-module equality is
false. -/
theorem module_pages_sum_counterexample :
    pagesSum (parse_page_owner poNoModuleFile).module_data = 0
  ∧ pagesSum (parse_page_owner poNoModuleFile).process_data = 4
  ∧ (parse_page_owner poNoModuleFile).total_allocs = 1
  ∧ (parse_page_owner poNoModuleFile).skipped = ⟨0, 0, 0⟩
  ∧ pagesSum (parse_page_owner poNoModuleFile).module_data
      ≠ pagesSum (parse_page_owner poNoModuleFile).process_data := by
  decide

/-- C3 (amended): over every input, the sum over all processes of the
per-process `pages` aggregate equals the sum of `pages` (each `2^order`)
over the allocations finalized by a blank line, and the per-process
`allocs` sum equals their number.  Blocks whose header parses but which
never reach a blank line, and the per-module sum (which counts a block
once per distinct module in its trace), fall outside this equality and
outside the skip counters. -/
theorem process_pages_accounting (lines : List PoLine) :
    pagesSum (parse_page_owner lines).process_data
        = allocPagesSum (parse_page_owner lines).allocations
      ∧ allocsSum (parse_page_owner lines).process_data
        = (parse_page_owner lines).allocations.length := by
  suffices h : ∀ (ls : List PoLine) (s : PoState),
      pagesSum s.process_data = allocPagesSum s.allocations →
      allocsSum s.process_data = s.allocations.length →
      pagesSum (ls.foldl poStep s).process_data = allocPagesSum (ls.foldl poStep s).allocations
        ∧ allocsSum (ls.foldl poStep s).process_data = (ls.foldl poStep s).allocations.length by
    exact h lines poInit rfl rfl
  intro ls
  induction ls with
  | nil => intro s h1 h2; exact ⟨h1, h2⟩
  | cons l t ih =>
    intro s h1 h2
    have hs := poStep_pages_inv s l h1 h2
    exact ih (poStep s l) hs.1 hs.2

/-- C6: two finalized allocation blocks with identical call-trace line
sequences always land in the same call-trace bucket (the key is a function
of the trace text alone), the bucket keys are pairwise distinct (exactly
one bucket per trace), and each bucket's `count` equals the number of
finalized allocations in the file with exactly that trace. -/
theorem calltrace_grouping :
    (∀ (lines : List PoLine) (key : List String),
        ctCount (parse_page_owner lines).calltrace_data key
          = ctMatches (parse_page_owner lines).allocations key)
  ∧ (∀ lines : List PoLine,
        ((parse_page_owner lines).calltrace_data.map Prod.fst).Nodup) := by
  constructor
  · intro lines key
    suffices h : ∀ (ls : List PoLine) (s : PoState),
        ctCount s.calltrace_data key = ctMatches s.allocations key →
        ctCount (ls.foldl poStep s).calltrace_data key
          = ctMatches (ls.foldl poStep s).allocations key by
      exact h lines poInit rfl
    intro ls
    induction ls with
    | nil => intro s h; exact h
    | cons l t ih => intro s h; exact ih (poStep s l) (poStep_ct_inv s l key h)
  · intro lines
    suffices h : ∀ (ls : List PoLine) (s : PoState),
        (s.calltrace_data.map Prod.fst).Nodup →
        ((ls.foldl poStep s).calltrace_data.map Prod.fst).Nodup by
      exact h lines poInit List.nodup_nil
    intro ls
    induction ls with
    | nil => intro s h; exact h
    | cons l t ih => intro s h; exact ih (poStep s l) (poStep_nodup_ct s l h)

/-- C8 (counterexample): parsing a file consisting of a single blank line
(one blank line read in IDLE) leaves `incomplete_trace` at 0, not at 1 as
the claim requires. -/
theorem incomplete_trace_not_incremented :
    (parse_page_owner [PoLine.blank]).skipped.incomplete_trace = 0
  ∧ (parse_page_owner [PoLine.blank]).skipped.incomplete_trace ≠ 1 := by
  decide

/-- C8 (amended): a blank line read while no allocation is open leaves the
parser state completely unchanged (it stays IDLE and no counter moves),
and `incomplete_trace` is 0 after parsing any input: the increment in the
final `elif not line:` branch sits under an `if in_trace:` guard that can
never hold there. -/
theorem incomplete_trace_always_zero :
    (∀ lines : List PoLine, (parse_page_owner lines).skipped.incomplete_trace = 0)
  ∧ (∀ s : PoState, s.in_trace = false → poStep s PoLine.blank = s) := by
  constructor
  · intro lines
    suffices h : ∀ (ls : List PoLine) (s : PoState),
        (ls.foldl poStep s).skipped.incomplete_trace = s.skipped.incomplete_trace by
      exact h lines poInit
    intro ls
    induction ls with
    | nil => intro s; rfl
    | cons l t ih =>
      intro s
      rw [List.foldl_cons, ih (poStep s l), poStep_incomplete]
  · intro s h
    cases s with
    | mk pd md sd pmp cd ci sk al ca cc it ta va =>
      simp only at h
      subst h
      simp [poStep]

/-- C8 (witness): the amended statement applied to concrete inputs. -/
theorem incomplete_trace_always_zero_witness :
    (parse_page_owner [PoLine.blank]).skipped.incomplete_trace = 0
  ∧ poStep poInit PoLine.blank = poInit :=
  ⟨incomplete_trace_always_zero.1 [PoLine.blank],
   incomplete_trace_always_zero.2 poInit rfl⟩

/-- C9 (counterexample): a file with a parsed "Page allocated" header and
a trace line but no terminating blank line before end-of-file: the block
was counted (`total_allocs = 1`) yet appears in no returned aggregate or
allocation list — it is silently dropped, contradicting the claim that it
is retained with whatever lines were collected. -/
theorem trailing_po_block_dropped :
    (parse_page_owner poTruncatedFile).total_allocs = 1
  ∧ (parse_page_owner poTruncatedFile).allocations = []
  ∧ (parse_page_owner poTruncatedFile).process_data = [] := by
  decide

/-- C9 (amended): `parse_oom_log` does retain a truncated trailing event —
any event still open at end-of-file is a key of the returned map (with the
lines collected for it); `parse_page_owner` does not — an allocation block
still open at end-of-file is absent from the returned allocations, and
only materializes if a further blank line arrives. -/
theorem truncated_event_retention :
    (∀ (lines : List String) (e : String),
        (parse_oom_log lines).current = some e →
          (alookup (parse_oom_log lines).events e).isSome)
  ∧ (∀ lines : List PoLine,
        (parse_page_owner lines).in_trace = true →
          (parse_page_owner (lines ++ [PoLine.blank])).allocations.length
            = (parse_page_owner lines).allocations.length + 1) := by
  constructor
  · intro lines e h
    induction lines using List.reverseRecOn with
    | nil => exact Option.noConfusion h
    | append_singleton ls l _ih =>
      rw [parse_oom_log, List.foldl_append, List.foldl_cons, List.foldl_nil] at h ⊢
      exact oomStep_open _ l e h
  · intro lines h
    have hopen := parse_open_alloc lines h
    rw [parse_page_owner, List.foldl_append, List.foldl_cons, List.foldl_nil]
    cases ha : (parse_page_owner lines).current_allocation with
    | none => rw [ha] at hopen; exact Bool.noConfusion hopen
    | some a =>
      rw [show lines.foldl poStep poInit = parse_page_owner lines from rfl]
      simp only [poStep, if_pos h, poFinalize, ha, List.length_append]
      rfl

/-- C9 (witness): the amended statement applied to concrete inputs. -/
theorem truncated_event_retention_witness :
    (alookup (parse_oom_log oomTruncatedFile).events
        "bash invoked oom-killer: gfp_mask=0x0").isSome
  ∧ (parse_page_owner (poTruncatedFile ++ [PoLine.blank])).allocations.length
      = (parse_page_owner poTruncatedFile).allocations.length + 1 :=
  ⟨truncated_event_retention.1 oomTruncatedFile _ (by decide),
   truncated_event_retention.2 poTruncatedFile (by decide)⟩

/-- C10: a minimal-form header ("order N, mask" with no pid/tgid/process/
timestamp fields) opens an allocation recorded as pid −1, tgid −1, ts −1,
process "Unknown", and increments `total_allocs` by one; finalization
always credits the single bucket keyed by the recorded process name (so
all such allocations merge into the one bucket keyed "Unknown"), and the
per-process bucket keys are pairwise distinct after any parse. -/
theorem minimal_header_unknown_attribution :
    (∀ (s : PoState) (o : Nat),
        (poStep s (PoLine.pageAllocatedMinimal o)).current_allocation
            = some ⟨o, -1, -1, "Unknown", -1⟩
          ∧ (poStep s (PoLine.pageAllocatedMinimal o)).in_trace = true
          ∧ (poStep s (PoLine.pageAllocatedMinimal o)).total_allocs = s.total_allocs + 1
          ∧ (poStep s (PoLine.pageAllocatedMinimal o)).current_calltrace = [])
  ∧ (∀ (s : PoState) (a : PoAlloc), s.in_trace = true → s.current_allocation = some a →
        (poStep s PoLine.blank).process_data
          = bumpStats s.process_data a.process 1 (2 ^ a.order))
  ∧ (∀ lines : List PoLine,
        ((parse_page_owner lines).process_data.map Prod.fst).Nodup) := by
  refine ⟨fun s o => ⟨rfl, rfl, rfl, rfl⟩, fun s a h ha => ?_, fun lines => ?_⟩
  · simp only [poStep, if_pos h, poFinalize, ha]
  · suffices h : ∀ (ls : List PoLine) (s : PoState),
        (s.process_data.map Prod.fst).Nodup →
        ((ls.foldl poStep s).process_data.map Prod.fst).Nodup by
      exact h lines poInit List.nodup_nil
    intro ls
    induction ls with
    | nil => intro s h; exact h
    | cons l t ih => intro s h; exact ih (poStep s l) (poStep_nodup_process s l h)

/-- C10 (witness): the step facts applied at concrete states (the second
at the state reached right after a minimal header of order 3). -/
theorem minimal_header_unknown_attribution_witness :
    (poStep poInit (PoLine.pageAllocatedMinimal 3)).current_allocation
        = some ⟨3, -1, -1, "Unknown", -1⟩
  ∧ (poStep (poStep poInit (PoLine.pageAllocatedMinimal 3)) PoLine.blank).process_data
      = bumpStats (poStep poInit (PoLine.pageAllocatedMinimal 3)).process_data
          "Unknown" 1 (2 ^ 3) :=
  ⟨(minimal_header_unknown_attribution.1 poInit 3).1,
   minimal_header_unknown_attribution.2.1 _ ⟨3, -1, -1, "Unknown", -1⟩ rfl rfl⟩

/-- C1: conservation of the unaccounted-memory derivation.  For
`calculate_memory_usage` the returned unaccounted value is exactly the
total minus the sum of the fourteen accounted categories (and re-adding
reproduces the returned total); for `calculate_unaccounted` and for the
chk_unaccounted_memory.py calculation, every successful result satisfies
`unaccounted = total − accounted_sum` and `accounted_sum + unaccounted =
total`, with the accounted sum taken over the returned accounted field
list. -/
theorem calc_unaccounted_conservation :
    (∀ (mi : MemoryInfo) (hk uk : ℚ) (sf : Bool) (psz : ℚ),
        (calculate_memory_usage mi hk uk sf psz).2.2
            = (mi.total_pages_ram : ℚ) - oomAccountedSum mi (hk / psz)
          ∧ oomAccountedSum mi (hk / psz) + (calculate_memory_usage mi hk uk sf psz).2.2
            = (calculate_memory_usage mi hk uk sf psz).2.1)
  ∧ (∀ (m : Meminfo) (sa : Bool) (t s : Nat) (u : Int) (fs : List String),
        calculate_unaccounted m sa = .ok (t, s, u, fs) →
          u = (t : Int) - (s : Int) ∧ (s : Int) + u = (t : Int)
            ∧ s = (fs.map fun f => (alookup m f).getD 0).sum)
  ∧ (∀ (m : Meminfo) (sa : Bool) (t s : Nat) (u : Int) (fs : List String),
        chk_unaccounted_calc m = some (sa, t, s, u, fs) →
          u = (t : Int) - (s : Int) ∧ (s : Int) + u = (t : Int)) := by
  refine ⟨fun mi hk uk sf psz => ?_, fun m sa t s u fs h => ?_, fun m sa t s u fs h => ?_⟩
  · constructor <;>
      · simp only [calculate_memory_usage, oomAccountedSum, List.sum_cons, List.sum_nil]
        ring
  · rw [calculate_unaccounted] at h
    cases hm : alookup m "MemTotal" with
    | none => rw [hm] at h; exact Except.noConfusion h
    | some total =>
      rw [hm] at h
      dsimp only at h
      simp only [Except.ok.injEq, Prod.mk.injEq] at h
      obtain ⟨h1, h2, h3, h4⟩ := h
      subst h1
      subst h4
      constructor
      · omega
      constructor
      · omega
      · exact h2.symm
  · unfold chk_unaccounted_calc at h
    split at h
    · dsimp only at h
      split at h
      · exact Option.noConfusion h
      · split at h
        · exact Option.noConfusion h
        · split at h
          · exact Option.noConfusion h
          · simp only [Option.some.injEq, Prod.mk.injEq] at h
            obtain ⟨h1, h2, h3, h4, h5⟩ := h
            omega
    · exact Option.noConfusion h

/-- C1 (witness): the conservation statement applied to a concrete
meminfo mapping. -/
theorem calc_unaccounted_conservation_witness :
    (70 : Int) = (100 : Nat) - (30 : Nat)
  ∧ ((30 : Nat) : Int) + 70 = (100 : Nat)
  ∧ (30 : Nat) = ((["MemFree"].map fun f =>
      (alookup [("MemTotal", 100), ("MemFree", 30)] f).getD 0).sum) :=
  calc_unaccounted_conservation.2.1 [("MemTotal", 100), ("MemFree", 30)] true
    100 30 70 ["MemFree"] rfl

/-- C2 (counterexample): with `total_pages_ram` absent (defaulted to 0 by
the extractor) and `free:5`, `calculate_memory_usage` does not fail at all
— it returns the negative unaccounted value −5; and `calculate_unaccounted`
accepts a mapping whose MemTotal is present but zero, returning the
negative unaccounted −5 instead of a "MemTotal not found" error. -/
theorem memtotal_zero_negative_unaccounted :
    (calculate_memory_usage miNoTotal 0 0 false 4).2.2 = -5
  ∧ ((-5 : ℚ) < 0)
  ∧ calculate_unaccounted mMemTotalZero true = .ok (0, 5, -5, ["MemFree"]) := by
  refine ⟨?_, by norm_num, rfl⟩
  norm_num [calculate_memory_usage, miNoTotal, miZero]

/-- C2 (amended): only `calculate_unaccounted` in chk_mem.py fails, and it
does so exactly when `MemTotal` is absent from the parsed mapping (with
the "MemTotal not found" error); a MemTotal that is present but zero is
accepted, and the calculation returns a result (which can then be a
negative unaccounted value).  `calculate_memory_usage` in
chk_oom_summary.py never fails: an absent `total_pages_ram` was already
defaulted to 0 by the extractor and the section is still computed. -/
theorem memtotal_missing_error_behavior :
    ∀ (m : Meminfo) (sa : Bool),
      (calculate_unaccounted m sa = .error "Error: MemTotal not found."
          ↔ alookup m "MemTotal" = none)
        ∧ ∀ t : Nat, alookup m "MemTotal" = some t →
            ∃ s u fs, calculate_unaccounted m sa = .ok (t, s, u, fs) := by
  intro m sa
  constructor
  · cases hm : alookup m "MemTotal" with
    | none => simp [calculate_unaccounted, hm]
    | some total => simp [calculate_unaccounted, hm]
  · intro t ht
    rw [calculate_unaccounted, ht]
    exact ⟨_, _, _, rfl⟩

/-- C2 (witness): the amended statement applied to a mapping with a zero
MemTotal (accepted, not an error) and to one with no MemTotal (error). -/
theorem memtotal_missing_error_behavior_witness :
    (∃ s u fs, calculate_unaccounted mMemTotalZero true = .ok (0, s, u, fs))
  ∧ calculate_unaccounted [("MemFree", 5)] true = .error "Error: MemTotal not found." :=
  ⟨(memtotal_missing_error_behavior mMemTotalZero true).2 0 (by decide),
   (memtotal_missing_error_behavior [("MemFree", 5)] true).1.mpr (by decide)⟩

/-- C7: the hugepage aggregation of `extract_memory_info` returns the pair
(sum over all matched Node lines of `total × size_kb`, sum over those
lines of `(total − free) × size_kb`), a node line counting as matched
exactly when all three hugepage fields matched; zero matched node lines
give (0, 0), which is an ordinary (non-error) result. -/
theorem hugepage_aggregation :
    (∀ nodes : List NodeSection,
        extract_hugepages nodes
          = (((nodes.filterMap nodeFields).map fun t => (t.1 : Int) * (t.2.2 : Int)).sum,
             ((nodes.filterMap nodeFields).map
                fun t => ((t.1 : Int) - (t.2.1 : Int)) * (t.2.2 : Int)).sum))
  ∧ extract_hugepages [] = (0, 0) := by
  constructor
  · intro nodes
    have h := extract_hugepages_fold nodes 0 0
    simpa [extract_hugepages] using h
  · rfl

/-- C5 (counterexample): on a two-bucket aggregate with top-N = 1, the
totals row of `show_top` reports 1 allocation and 2 pages — the sums over
the displayed slice — while the full aggregate has 2 allocations and 3
pages, so the totals row is not computed over the full map. -/
theorem totals_row_truncated_counterexample :
    (show_top_totals topData (fun s => s.pages) "K" 1).1 = 1
  ∧ (show_top_totals topData (fun s => s.pages) "K" 1).2.1 = 2
  ∧ allocsSum topData = 2
  ∧ pagesSum topData = 3
  ∧ (show_top_totals topData (fun s => s.pages) "K" 1).2.1 ≠ pagesSum topData := by
  decide

/-- C5 (amended): the totals row of `show_top` (and of
`show_processes_for_module`) is computed over the displayed top-N slice of
the sorted aggregate, not over the full map; it agrees with the full
aggregate exactly in the non-truncating case, i.e. whenever the aggregate
has at most N entries. -/
theorem totals_row_over_slice :
    (∀ (data : List (String × PoStats)) (key : PoStats → Nat) (unit : String) (n : Nat),
        show_top_totals data key unit n
            = (allocsSum (showTopSlice data key n), pagesSum (showTopSlice data key n),
               (convert_pages (pagesSum (showTopSlice data key n)) unit).1)
          ∧ (data.length ≤ n →
              show_top_totals data key unit n
                = (allocsSum data, pagesSum data, (convert_pages (pagesSum data) unit).1)))
  ∧ (∀ (pmp : List ((String × String) × PoStats)) (module_name unit : String) (n : Nat),
        show_processes_for_module_totals pmp module_name unit n
            = (allocsSum (showTopSlice (spfmAggregate pmp module_name) (fun st => st.pages) n),
               pagesSum (showTopSlice (spfmAggregate pmp module_name) (fun st => st.pages) n),
               (convert_pages
                 (pagesSum (showTopSlice (spfmAggregate pmp module_name) (fun st => st.pages) n))
                 unit).1)
          ∧ ((spfmAggregate pmp module_name).length ≤ n →
              show_processes_for_module_totals pmp module_name unit n
                = (allocsSum (spfmAggregate pmp module_name),
                   pagesSum (spfmAggregate pmp module_name),
                   (convert_pages (pagesSum (spfmAggregate pmp module_name)) unit).1))) := by
  constructor
  · intro data key unit n
    have hslice : show_top_totals data key unit n
        = (allocsSum (showTopSlice data key n), pagesSum (showTopSlice data key n),
           (convert_pages (pagesSum (showTopSlice data key n)) unit).1) := by
      unfold show_top_totals
      rw [totalsFold]
      simp
    refine ⟨hslice, fun hlen => ?_⟩
    rw [hslice, showTopSlice_of_length_le data key n hlen]
    have hperm := List.perm_insertionSort (poDescOrder key) data
    rw [allocsSum_perm hperm, pagesSum_perm hperm]
  · intro pmp module_name unit n
    have hslice : show_processes_for_module_totals pmp module_name unit n
        = (allocsSum (showTopSlice (spfmAggregate pmp module_name) (fun st => st.pages) n),
           pagesSum (showTopSlice (spfmAggregate pmp module_name) (fun st => st.pages) n),
           (convert_pages
             (pagesSum (showTopSlice (spfmAggregate pmp module_name) (fun st => st.pages) n))
             unit).1) := by
      unfold show_processes_for_module_totals
      dsimp only
      rw [totalsFold]
      simp
    refine ⟨hslice, fun hlen => ?_⟩
    rw [hslice, showTopSlice_of_length_le _ _ n hlen]
    have hperm := List.perm_insertionSort (poDescOrder fun st => st.pages)
      (spfmAggregate pmp module_name)
    rw [allocsSum_perm hperm, pagesSum_perm hperm]

/-- C5 (witness): the amended statement at a concrete non-truncating
instance. -/
theorem totals_row_over_slice_witness :
    show_top_totals topData (fun st => st.pages) "K" 5
      = (allocsSum topData, pagesSum topData, (convert_pages (pagesSum topData) "K").1) :=
  ((totals_row_over_slice.1 topData (fun st => st.pages) "K" 5).2 (by decide))

theorem mem_chkMemAccounted (m : Meminfo) (sa : Bool) (f : String) :
    f ∈ chkMemAccounted m sa ↔
      ((f ∈ FIELDS ∧ (!chkMemSkip f sa && (alookup m f).isSome) = true)
        ∨ (f = "HugePages" ∧ (alookup m "HugePages").isSome = true)) := by
  unfold chkMemAccounted
  rw [List.mem_append, List.mem_filter]
  apply or_congr Iff.rfl
  by_cases hh : (alookup m "HugePages").isSome = true
  · rw [if_pos hh]
    simp [hh]
  · rw [if_neg hh]
    simp [hh]

theorem mem_cuAcc0 (m2 : Meminfo) (f : String) :
    f ∈ ((cuFields ++ ["HugePages"]).filter fun g => (alookup m2 g).isSome && g ≠ "MemTotal")
      ↔ (f ∈ cuFields ++ ["HugePages"] ∧ (alookup m2 f).isSome = true ∧ f ≠ "MemTotal") := by
  rw [List.mem_filter]
  simp [Bool.and_eq_true, decide_eq_true_eq]

/-- C4 (counterexample): a parsed meminfo mapping in which `AnonPages` is
present but `Active(anon)`/`Inactive(anon)` are absent.  Instead of using
AnonPages and (vacuously) excluding the anon pair from the accounted
list, chk_unaccounted_memory.py crashes: its unguarded
`accounted_memory_fields.remove("Active(anon)")` raises ValueError, so no
accounted field list is produced at all. -/
theorem chk_unaccounted_anon_remove_crash :
    (alookup mAnonOnly "AnonPages").isSome = true
  ∧ chk_unaccounted_calc mAnonOnly = none := by
  constructor
  · rfl
  · rfl

/-- C4 (amended): exactly one anon representation contributes to the
accounted sum, with one proviso in chk_unaccounted_memory.py.  In
chk_mem.py this holds for every mapping: if AnonPages is present,
`show_anonpages` is true, AnonPages is accounted and the anon pair is
excluded; otherwise AnonPages is synthesized as Active(anon) +
Inactive(anon), excluded from the accounted list, and the anon pair is
accounted.  In chk_unaccounted_memory.py the same policy holds only when
Active(anon) and Inactive(anon) are both present alongside AnonPages —
when they are absent the script crashes on `list.remove` (the
counterexample) instead of producing an accounted list. -/
theorem anonpages_reconciliation :
    (∀ m : Meminfo, (alookup m "AnonPages").isSome = true →
        compute_anonpages m = some (true, m)
          ∧ "AnonPages" ∈ chkMemAccounted m true
          ∧ "Active(anon)" ∉ chkMemAccounted m true
          ∧ "Inactive(anon)" ∉ chkMemAccounted m true)
  ∧ (∀ (m : Meminfo) (a i : Nat),
        alookup m "AnonPages" = none →
        alookup m "Active(anon)" = some a →
        alookup m "Inactive(anon)" = some i →
          compute_anonpages m = some (false, aset m "AnonPages" (a + i))
            ∧ alookup (aset m "AnonPages" (a + i)) "AnonPages" = some (a + i)
            ∧ "AnonPages" ∉ chkMemAccounted (aset m "AnonPages" (a + i)) false
            ∧ "Active(anon)" ∈ chkMemAccounted (aset m "AnonPages" (a + i)) false
            ∧ "Inactive(anon)" ∈ chkMemAccounted (aset m "AnonPages" (a + i)) false)
  ∧ (∀ (m : Meminfo) (ap aa ia hpt hps mt : Nat),
        alookup m "AnonPages" = some ap →
        alookup m "Active(anon)" = some aa →
        alookup m "Inactive(anon)" = some ia →
        alookup m "HugePages_Total" = some hpt →
        alookup m "Hugepagesize" = some hps →
        alookup m "MemTotal" = some mt →
          ∃ t s u acc, chk_unaccounted_calc m = some (true, t, s, u, acc)
            ∧ "AnonPages" ∈ acc
            ∧ "Active(anon)" ∉ acc
            ∧ "Inactive(anon)" ∉ acc)
  ∧ (∀ (m : Meminfo) (aa ia hpt hps mt : Nat),
        alookup m "AnonPages" = none →
        alookup m "Active(anon)" = some aa →
        alookup m "Inactive(anon)" = some ia →
        alookup m "HugePages_Total" = some hpt →
        alookup m "Hugepagesize" = some hps →
        alookup m "MemTotal" = some mt →
          ∃ t s u acc, chk_unaccounted_calc m = some (false, t, s, u, acc)
            ∧ "AnonPages" ∉ acc
            ∧ "Active(anon)" ∈ acc
            ∧ "Inactive(anon)" ∈ acc) := by
  refine ⟨fun m h => ?_, fun m a i h0 h1 h2 => ?_,
    fun m ap aa ia hpt hps mt h1 h2 h3 h4 h5 h6 => ?_,
    fun m aa ia hpt hps mt h1 h2 h3 h4 h5 h6 => ?_⟩
  · refine ⟨by simp [compute_anonpages, h], ?_, ?_, ?_⟩
    · refine (mem_chkMemAccounted m true _).mpr (Or.inl ⟨by decide, ?_⟩)
      rw [(by decide : chkMemSkip "AnonPages" true = false)]
      simp [h]
    · intro hmem
      rcases (mem_chkMemAccounted m true _).mp hmem with ⟨_, hp⟩ | ⟨hf, _⟩
      · rw [(by decide : chkMemSkip "Active(anon)" true = true)] at hp
        simp at hp
      · exact absurd hf (by decide)
    · intro hmem
      rcases (mem_chkMemAccounted m true _).mp hmem with ⟨_, hp⟩ | ⟨hf, _⟩
      · rw [(by decide : chkMemSkip "Inactive(anon)" true = true)] at hp
        simp at hp
      · exact absurd hf (by decide)
  · have hset : ∀ f : String, f ≠ "AnonPages" →
        alookup (aset m "AnonPages" (a + i)) f = alookup m f :=
      fun f hf => alookup_aset_ne m "AnonPages" f (a + i) hf
    refine ⟨by simp [compute_anonpages, h0, h1, h2],
      alookup_aset_self m "AnonPages" (a + i), ?_, ?_, ?_⟩
    · intro hmem
      rcases (mem_chkMemAccounted _ false _).mp hmem with ⟨_, hp⟩ | ⟨hf, _⟩
      · rw [(by decide : chkMemSkip "AnonPages" false = true)] at hp
        simp at hp
      · exact absurd hf (by decide)
    · refine (mem_chkMemAccounted _ false _).mpr (Or.inl ⟨by decide, ?_⟩)
      rw [(by decide : chkMemSkip "Active(anon)" false = false),
        hset "Active(anon)" (by decide), h1]
      rfl
    · refine (mem_chkMemAccounted _ false _).mpr (Or.inl ⟨by decide, ?_⟩)
      rw [(by decide : chkMemSkip "Inactive(anon)" false = false),
        hset "Inactive(anon)" (by decide), h2]
      rfl
  · set m1 := aset m "HugePages" (hpt * hps) with hm1
    have hA1 : alookup m1 "AnonPages" = some ap := by
      rw [hm1, alookup_aset_ne m "HugePages" _ _ (by decide)]; exact h1
    have hA1s : (alookup m1 "AnonPages").isSome = true := by rw [hA1]; rfl
    have hA2 : alookup m1 "Active(anon)" = some aa := by
      rw [hm1, alookup_aset_ne m "HugePages" _ _ (by decide)]; exact h2
    have hA3 : alookup m1 "Inactive(anon)" = some ia := by
      rw [hm1, alookup_aset_ne m "HugePages" _ _ (by decide)]; exact h3
    have hA6 : alookup m1 "MemTotal" = some mt := by
      rw [hm1, alookup_aset_ne m "HugePages" _ _ (by decide)]; exact h6
    set acc0 := (cuFields ++ ["HugePages"]).filter
      (fun g => (alookup m1 g).isSome && g ≠ "MemTotal") with hacc0
    have hnd : acc0.Nodup := by
      rw [hacc0]
      exact (by decide : (cuFields ++ ["HugePages"]).Nodup).filter _
    have hmemA : "Active(anon)" ∈ acc0 := by
      rw [hacc0]
      exact (mem_cuAcc0 m1 _).mpr ⟨by decide, by rw [hA2]; rfl, by decide⟩
    have hmemI : "Inactive(anon)" ∈ acc0.erase "Active(anon)" :=
      (List.mem_erase_of_ne (by decide)).mpr (by
        rw [hacc0]
        exact (mem_cuAcc0 m1 _).mpr ⟨by decide, by rw [hA3]; rfl, by decide⟩)
    set L3 := (((acc0.erase "Active(anon)").erase "Inactive(anon)").erase
      "HugePages_Total").erase "Hugepagesize" with hL3
    have hv : chk_unaccounted_calc m
        = some (true, mt, (L3.map fun f => (alookup m1 f).getD 0).sum,
            (mt : Int) - (((L3.map fun f => (alookup m1 f).getD 0).sum : Nat) : Int), L3) := by
      unfold chk_unaccounted_calc
      rw [h4, h5]
      dsimp only
      rw [← hm1]
      rw [if_pos hA1s]
      dsimp only
      rw [hA6]
      dsimp only
      rw [if_pos rfl]
      rw [← hacc0]
      rw [removeFirst_eq, if_pos hmemA]
      dsimp only
      rw [removeFirst_eq, if_pos hmemI]
      dsimp only
      rw [removeIfPresent_eq, removeIfPresent_eq]
    refine ⟨_, _, _, _, hv, ?_, ?_, ?_⟩
    · rw [hL3]
      refine (List.mem_erase_of_ne (by decide)).mpr ?_
      refine (List.mem_erase_of_ne (by decide)).mpr ?_
      refine (List.mem_erase_of_ne (by decide)).mpr ?_
      refine (List.mem_erase_of_ne (by decide)).mpr ?_
      rw [hacc0]
      exact (mem_cuAcc0 m1 _).mpr ⟨by decide, by rw [hA1]; rfl, by decide⟩
    · intro hmem
      rw [hL3] at hmem
      have h1' := List.mem_of_mem_erase (List.mem_of_mem_erase (List.mem_of_mem_erase hmem))
      exact ((hnd.mem_erase_iff).mp h1').1 rfl
    · intro hmem
      rw [hL3] at hmem
      have h1' := List.mem_of_mem_erase (List.mem_of_mem_erase hmem)
      exact (((hnd.erase _).mem_erase_iff).mp h1').1 rfl
  · set m1 := aset m "HugePages" (hpt * hps) with hm1
    have hA1 : alookup m1 "AnonPages" = none := by
      rw [hm1, alookup_aset_ne m "HugePages" _ _ (by decide)]; exact h1
    have hA1s : ¬((alookup m1 "AnonPages").isSome = true) := by rw [hA1]; decide
    have hA2 : alookup m1 "Active(anon)" = some aa := by
      rw [hm1, alookup_aset_ne m "HugePages" _ _ (by decide)]; exact h2
    have hA3 : alookup m1 "Inactive(anon)" = some ia := by
      rw [hm1, alookup_aset_ne m "HugePages" _ _ (by decide)]; exact h3
    set m2 := aset m1 "AnonPages" (aa + ia) with hm2
    have hB1 : alookup m2 "AnonPages" = some (aa + ia) := by
      rw [hm2]; exact alookup_aset_self m1 "AnonPages" (aa + ia)
    have hB2 : alookup m2 "Active(anon)" = some aa := by
      rw [hm2, alookup_aset_ne m1 "AnonPages" _ _ (by decide)]; exact hA2
    have hB3 : alookup m2 "Inactive(anon)" = some ia := by
      rw [hm2, alookup_aset_ne m1 "AnonPages" _ _ (by decide)]; exact hA3
    have hB6 : alookup m2 "MemTotal" = some mt := by
      rw [hm2, alookup_aset_ne m1 "AnonPages" _ _ (by decide),
        hm1, alookup_aset_ne m "HugePages" _ _ (by decide)]
      exact h6
    set acc0 := (cuFields ++ ["HugePages"]).filter
      (fun g => (alookup m2 g).isSome && g ≠ "MemTotal") with hacc0
    have hnd : acc0.Nodup := by
      rw [hacc0]
      exact (by decide : (cuFields ++ ["HugePages"]).Nodup).filter _
    have hmemAP : "AnonPages" ∈ acc0 := by
      rw [hacc0]
      exact (mem_cuAcc0 m2 _).mpr ⟨by decide, by rw [hB1]; rfl, by decide⟩
    set L3 := ((acc0.erase "AnonPages").erase "HugePages_Total").erase "Hugepagesize" with hL3
    have hv : chk_unaccounted_calc m
        = some (false, mt, (L3.map fun f => (alookup m2 f).getD 0).sum,
            (mt : Int) - (((L3.map fun f => (alookup m2 f).getD 0).sum : Nat) : Int), L3) := by
      unfold chk_unaccounted_calc
      rw [h4, h5]
      dsimp only
      rw [← hm1]
      rw [if_neg hA1s]
      rw [hA2, hA3]
      dsimp only
      rw [← hm2]
      rw [hB6]
      dsimp only
      rw [if_neg (by decide : ¬(false = true))]
      rw [← hacc0]
      rw [removeFirst_eq, if_pos hmemAP]
      dsimp only
      rw [removeIfPresent_eq, removeIfPresent_eq]
    refine ⟨_, _, _, _, hv, ?_, ?_, ?_⟩
    · intro hmem
      rw [hL3] at hmem
      have h1' := List.mem_of_mem_erase (List.mem_of_mem_erase hmem)
      exact ((hnd.mem_erase_iff).mp h1').1 rfl
    · rw [hL3]
      refine (List.mem_erase_of_ne (by decide)).mpr ?_
      refine (List.mem_erase_of_ne (by decide)).mpr ?_
      refine (List.mem_erase_of_ne (by decide)).mpr ?_
      rw [hacc0]
      exact (mem_cuAcc0 m2 _).mpr ⟨by decide, by rw [hB2]; rfl, by decide⟩
    · rw [hL3]
      refine (List.mem_erase_of_ne (by decide)).mpr ?_
      refine (List.mem_erase_of_ne (by decide)).mpr ?_
      refine (List.mem_erase_of_ne (by decide)).mpr ?_
      rw [hacc0]
      exact (mem_cuAcc0 m2 _).mpr ⟨by decide, by rw [hB3]; rfl, by decide⟩

/-- C4 (witness): the amended statement applied at concrete mappings for
all four cases. -/
theorem anonpages_reconciliation_witness :
    ("AnonPages" ∈ chkMemAccounted [("MemTotal", 100), ("AnonPages", 10)] true)
  ∧ ("Active(anon)" ∈ chkMemAccounted
      (aset [("MemTotal", 100), ("Active(anon)", 7), ("Inactive(anon)", 5)]
        "AnonPages" (7 + 5)) false)
  ∧ (∃ t s u acc, chk_unaccounted_calc
        [("MemTotal", 100), ("AnonPages", 10), ("Active(anon)", 7),
         ("Inactive(anon)", 5), ("HugePages_Total", 2), ("Hugepagesize", 1024)]
          = some (true, t, s, u, acc)
        ∧ "AnonPages" ∈ acc ∧ "Active(anon)" ∉ acc ∧ "Inactive(anon)" ∉ acc)
  ∧ (∃ t s u acc, chk_unaccounted_calc
        [("MemTotal", 100), ("Active(anon)", 7), ("Inactive(anon)", 5),
         ("HugePages_Total", 2), ("Hugepagesize", 1024)]
          = some (false, t, s, u, acc)
        ∧ "AnonPages" ∉ acc ∧ "Active(anon)" ∈ acc ∧ "Inactive(anon)" ∈ acc) :=
  ⟨(anonpages_reconciliation.1 [("MemTotal", 100), ("AnonPages", 10)] rfl).2.1,
   (anonpages_reconciliation.2.1
      [("MemTotal", 100), ("Active(anon)", 7), ("Inactive(anon)", 5)]
      7 5 rfl rfl rfl).2.2.2.1,
   anonpages_reconciliation.2.2.1
      [("MemTotal", 100), ("AnonPages", 10), ("Active(anon)", 7),
       ("Inactive(anon)", 5), ("HugePages_Total", 2), ("Hugepagesize", 1024)]
      10 7 5 2 1024 100 rfl rfl rfl rfl rfl rfl,
   anonpages_reconciliation.2.2.2
      [("MemTotal", 100), ("Active(anon)", 7), ("Inactive(anon)", 5),
       ("HugePages_Total", 2), ("Hugepagesize", 1024)]
      7 5 2 1024 100 rfl rfl rfl rfl rfl rfl⟩
